import Mathlib

/-!
# Verification of the claude-alarm detection-and-scheduling engine

Shallow embedding of the core logic of the claude-alarm repository:

* `matchesRateLimit`   — the rate-limit classifier of `src/hook-handler.js`
  (the regex family `rate.?limit`, `usage.?limit`, …, `\b429\b`).
* `extractResetTime`   — the reset-time parser of `src/hook-handler.js`
  (relative hours / minutes / seconds, `retry-after`, 12-hour and 24-hour
  clock expressions), parameterised by the current wall-clock instant
  expressed as milliseconds since local midnight.
* `handleHook`         — the hook entry point composition (classifier,
  PID-file liveness check, parser with falsy-or fallback to the default).
* `isAlarmRunning`, `claimPid`, `cleanupPid` — the liveness store.
* `schedStep`          — the daemon scheduling state machine (dual-timer
  variant with the `alarmFired` guard, and the plain `alarm-daemon.js`
  variant that installs only the relative-delay timeout).
* `waitMinutesInt`, `waitMinutesFloat` — the two command-line wait-argument
  parsers of the daemon variants.
* `parseTime`, `manualStart` — the CLI `start` command of `src/setup.js`.

Text is modelled as a list of Unicode codepoints (`List Nat`); JavaScript
strings are embedded through `str2n`.  Numbers are modelled as `Nat`/`Int`/`ℚ`
(the relevant JavaScript arithmetic here is exact: integer millisecond
timestamps, decimal literals from digit captures).  Regex matching is
embedded as direct scanning functions that replicate the leftmost-match,
greedy semantics of the specific patterns in the source.
-/

/-- Codepoints of a string literal; the embedding of a JavaScript string. -/
def str2n (s : String) : List Nat := s.data.map Char.toNat

/-- ASCII lower-casing of one codepoint: the effect of a case-insensitive
(`/i`) regex comparison, and of `String.prototype.toLowerCase` on ASCII. -/
def lcn (n : Nat) : Nat := if 65 ≤ n ∧ n ≤ 90 then n + 32 else n

/-- JavaScript `\s` (the whitespace forms relevant to this code base:
ASCII whitespace and NBSP). -/
def isWsC (n : Nat) : Bool :=
  n = 32 || n = 9 || n = 10 || n = 11 || n = 12 || n = 13 || n = 160

/-- JavaScript `\d` (ASCII digits). -/
def isDigitC (n : Nat) : Bool := 48 ≤ n && n ≤ 57

/-- JavaScript `.` (without the `s` flag): any codepoint except the four
line terminators. -/
def dotC (n : Nat) : Bool := !(n = 10 || n = 13 || n = 8232 || n = 8233)

/-- JavaScript `\w`: ASCII letters, digits and underscore. -/
def isWordC (n : Nat) : Bool :=
  (48 ≤ n && n ≤ 57) || (65 ≤ n && n ≤ 90) || (97 ≤ n && n ≤ 122) || n = 95

/-- Numeric value of a list of ASCII digit codepoints (`parseInt` on a
pure digit capture). -/
def digitsVal (l : List Nat) : Nat := l.foldl (fun a c => a * 10 + (c - 48)) 0

/-- Maximal leading digit run (`\d+` / `\d*` greedy): the digits and the rest. -/
def takeDigits : List Nat → List Nat × List Nat
  | c :: cs =>
    if isDigitC c then
      ((c :: (takeDigits cs).1), (takeDigits cs).2)
    else ([], c :: cs)
  | [] => ([], [])

/-- Greedy `\s*`. -/
def skipWs : List Nat → List Nat
  | c :: cs => if isWsC c then skipWs cs else c :: cs
  | [] => []

/-- `\s+`: at least one whitespace codepoint, then greedily more. -/
def matchWs1 : List Nat → Option (List Nat)
  | c :: cs => if isWsC c then some (skipWs cs) else none
  | [] => none

/-- Greedy `[\s:]*`. -/
def skipSepColon : List Nat → List Nat
  | c :: cs => if isWsC c || c = 58 then skipSepColon cs else c :: cs
  | [] => []

/-- `[\s:]+` as used by the `retry.?after[\s:]+` pattern. -/
def matchSepColon1 : List Nat → Option (List Nat)
  | c :: cs => if isWsC c || c = 58 then some (skipSepColon cs) else none
  | [] => none

/-- Case-insensitive literal word match at the head of the input, returning
the rest of the input on success. -/
def matchLit : List Nat → List Nat → Option (List Nat)
  | [], l => some l
  | _ :: _, [] => none
  | w :: ws, c :: cs => if lcn c = w then matchLit ws cs else none

/-- Optional fraction `\.?\d*`: consume a dot and the following digit run
when present.  Returns the fraction digits and the rest. -/
def fracPart : List Nat → List Nat × List Nat
  | 46 :: cs => takeDigits cs
  | l => ([], l)

/-- Exact rational value of a decimal capture `(\d+\.?\d*)` with integer
digits `int` and fraction digits `frac`: `(int·10^k + frac) / 10^k`.
This is the idealised value the specification's formulas speak about;
the running code holds the nearest IEEE binary64 instead (see
`roundF64`). -/
def capVal (int frac : List Nat) : ℚ :=
  mkRat ((digitsVal int * 10 ^ frac.length + digitsVal frac : Nat) : ℤ) (10 ^ frac.length)

/-- `Math.max` on two (non-NaN) numbers. -/
def jsMax (a b : ℚ) : ℚ := if a ≤ b then b else a

/-- Ceiling division on naturals (`Math.ceil(a / b)` for nonnegative
integer `a` and positive `b`). -/
def ceilDiv (a b : Nat) : Nat := (a + b - 1) / b

/-- Fuel-driven floor of the base-2 logarithm (structural recursion, so
concrete runs reduce in the kernel); `ilog2F fuel n` is exact whenever
`fuel ≥ log2 n`. -/
def ilog2F : Nat → Nat → Nat
  | 0, _ => 0
  | fuel + 1, n => if n < 2 then 0 else ilog2F fuel (n / 2) + 1

/-- `⌊log2 n⌋` for `n ≥ 1` (the number itself is always enough fuel). -/
def ilog2 (n : Nat) : Nat := ilog2F n n

/-- Round the nonnegative quotient `A / B` (`B > 0`) to the nearest
integer, ties to even — the IEEE-754 rounding rule. -/
def roundNearestEven (A B : Nat) : Nat :=
  if 2 * (A % B) < B then A / B
  else if B < 2 * (A % B) then A / B + 1
  else if A / B % 2 = 0 then A / B else A / B + 1

/-- The IEEE-754 binary64 value nearest to `a / b` (`a ≥ 0`, `b > 0`),
returned as an exact `numerator / power-of-two-denominator` pair.
The significand is scaled so the real mantissa lies in `[2^52, 2^53)`
and is rounded to nearest, ties to even; exponent overflow to infinity
and subnormal underflow are outside the range of the captures this code
parses and are not modelled. -/
def roundF64 (a b : Nat) : Nat × Nat :=
  if a = 0 then (0, 1)
  else
    let K := ilog2 b + 1
    let e : Int := (ilog2 (a * 2 ^ K / b) : Int) - (K : Int)
    let s : Int := e - 52
    if s ≤ 0 then
      (roundNearestEven (a * 2 ^ (-s).toNat) b, 2 ^ (-s).toNat)
    else
      (roundNearestEven a (b * 2 ^ s.toNat) * 2 ^ s.toNat, 1)

/-- `Math.ceil(parseFloat(capture) * 60)` exactly as the engine computes
it: the capture's decimal value is rounded to the nearest binary64
(`parseFloat`), the product with 60 is rounded to the nearest binary64
(IEEE multiplication; 60 is exactly representable), and `Math.ceil` of
that double is exact.  Double rounding can land just above an integer,
so this can exceed the exact `⌈value·60⌉` by one (e.g. capture `4.15`
gives 250 where the exact ceiling is 249). -/
def jsHoursTimes60Ceil (int frac : List Nat) : Nat :=
  let a := digitsVal int * 10 ^ frac.length + digitsVal frac
  let b := 10 ^ frac.length
  let p := roundF64 a b
  let q := roundF64 (60 * p.1) p.2
  ceilDiv q.1 q.2

/-! ## The rate-limit classifier (`matchesRateLimit` in `src/hook-handler.js`) -/

/-- Match a sequence of literal words separated by `.?` (one optional
non-line-terminator codepoint between consecutive words), at the head of
the input.  This is the shape of every textual pattern of the classifier,
e.g. `/too.?many.?requests/i` is `matchWords [too, many, requests]`. -/
def matchWords : List (List Nat) → List Nat → Bool
  | [], _ => true
  | w :: ws, l =>
    match matchLit w l with
    | none => false
    | some rest =>
      if ws.isEmpty then true
      else
        matchWords ws rest ||
        (match rest with
         | c :: cs => dotC c && matchWords ws cs
         | [] => false)

/-- Scan every suffix of the input for `matchWords` (regex search). -/
def searchWords (ws : List (List Nat)) : List Nat → Bool
  | [] => matchWords ws []
  | c :: cs => matchWords ws (c :: cs) || searchWords ws cs

/-- Does the input start with the literal `429` followed by a word
boundary (end of input or a non-word codepoint)? -/
def starts429 : List Nat → Bool
  | 52 :: 50 :: 57 :: rest =>
    match rest with
    | [] => true
    | c :: _ => !isWordC c
  | _ => false

/-- Scan for `/\b429\b/`: `prev` is the codepoint just before the current
suffix (`none` at the start of the input); a match needs a word boundary
on the left, the literal digits, and a word boundary on the right. -/
def search429 (prev : Option Nat) : List Nat → Bool
  | [] => false
  | c :: cs =>
    ((match prev with | none => true | some p => !isWordC p) && starts429 (c :: cs)) ||
    search429 (some c) cs

/-- Disjunction of the eleven indicator patterns of
`matchesRateLimit` in `src/hook-handler.js` (the `.some` over
`rateLimitPatterns`). -/
def matchesAnyPattern (text : List Nat) : Bool :=
  searchWords [str2n (r"rate"), str2n (r"limit")] text ||
  searchWords [str2n (r"usage"), str2n (r"limit")] text ||
  searchWords [str2n (r"limit"), str2n (r"reached")] text ||
  searchWords [str2n (r"limit"), str2n (r"exceeded")] text ||
  searchWords [str2n (r"too"), str2n (r"many"), str2n (r"requests")] text ||
  search429 none text ||
  searchWords [str2n (r"cooldown"), str2n (r"period")] text ||
  searchWords [str2n (r"quota"), str2n (r"exceeded")] text ||
  searchWords [str2n (r"token"), str2n (r"limit"), str2n (r"reached")] text ||
  searchWords [str2n (r"capacity"), str2n (r"limit")] text ||
  searchWords [str2n (r"over"), str2n (r"capacity")] text

/-- The classifier `matchesRateLimit(text)` of `src/hook-handler.js`:
`if (!text) return false;` then test the pattern family. -/
def matchesRateLimit (text : List Nat) : Bool :=
  if text.isEmpty then false else matchesAnyPattern text

/-- The indicator phrases of the specification, as lowercase codepoint
lists: any text containing one of them (case-insensitively) must satisfy
the classifier.  Each phrase instantiates its regex with a single space
in place of the `.?` separator. -/
def indicatorPhrases : List (List Nat) :=
  [str2n (r"rate") ++ 32 :: str2n (r"limit"),
   str2n (r"usage") ++ 32 :: str2n (r"limit"),
   str2n (r"limit") ++ 32 :: str2n (r"reached"),
   str2n (r"limit") ++ 32 :: str2n (r"exceeded"),
   str2n (r"too") ++ 32 :: (str2n (r"many") ++ 32 :: str2n (r"requests")),
   str2n (r"cooldown") ++ 32 :: str2n (r"period"),
   str2n (r"quota") ++ 32 :: str2n (r"exceeded"),
   str2n (r"capacity") ++ 32 :: str2n (r"limit"),
   str2n (r"over") ++ 32 :: str2n (r"capacity")]

/-! ## The reset-time parser (`extractResetTime` in `src/hook-handler.js`) -/

/-- Leftmost-match regex search: try the position matcher at every suffix,
left to right, and return the first capture. -/
def firstMatch {α : Type} (p : List Nat → Option α) : List Nat → Option α
  | [] => p []
  | c :: cs =>
    match p (c :: cs) with
    | some v => some v
    | none => firstMatch p cs

/-- Position matcher for `/in\s+(\d+\.?\d*)\s*hours?/i`, returning the
captured integer digits and fraction digits. -/
def hoursAt (l : List Nat) : Option (List Nat × List Nat) :=
  match matchLit (str2n (r"in")) l with
  | none => none
  | some r1 =>
  match matchWs1 r1 with
  | none => none
  | some r2 =>
    let ds := (takeDigits r2).1
    let r3 := (takeDigits r2).2
    if ds.isEmpty then none
    else
      let fr := (fracPart r3).1
      let r4 := (fracPart r3).2
      match matchLit (str2n (r"hour")) (skipWs r4) with
      | none => none
      | some _ => some (ds, fr)

/-- Position matcher for `/in\s+(\d+)\s*minutes?/i`. -/
def minutesAt (l : List Nat) : Option Nat :=
  match matchLit (str2n (r"in")) l with
  | none => none
  | some r1 =>
  match matchWs1 r1 with
  | none => none
  | some r2 =>
    let ds := (takeDigits r2).1
    let r3 := (takeDigits r2).2
    if ds.isEmpty then none
    else
      match matchLit (str2n (r"minute")) (skipWs r3) with
      | none => none
      | some _ => some (digitsVal ds)

/-- Position matcher for `/in\s+(\d+)\s*seconds?/i`. -/
def secondsAt (l : List Nat) : Option Nat :=
  match matchLit (str2n (r"in")) l with
  | none => none
  | some r1 =>
  match matchWs1 r1 with
  | none => none
  | some r2 =>
    let ds := (takeDigits r2).1
    let r3 := (takeDigits r2).2
    if ds.isEmpty then none
    else
      match matchLit (str2n (r"second")) (skipWs r3) with
      | none => none
      | some _ => some (digitsVal ds)

/-- Position matcher for `/retry.?after[\s:]+(\d+)/i`. -/
def retryAt (l : List Nat) : Option Nat :=
  match matchLit (str2n (r"retry")) l with
  | none => none
  | some r1 =>
    let afterRest : Option (List Nat) :=
      match matchLit (str2n (r"after")) r1 with
      | some r => some r
      | none =>
        match r1 with
        | c :: cs => if dotC c then matchLit (str2n (r"after")) cs else none
        | [] => none
    match afterRest with
    | none => none
    | some r2 =>
    match matchSepColon1 r2 with
    | none => none
    | some r3 =>
      let ds := (takeDigits r3).1
      if ds.isEmpty then none else some (digitsVal ds)

/-- `(\d{1,2}):(\d{2})` at the head of the input: a one-or-two digit hour
field (greedy, with the regex backtracking collapsing to: two digits when
the third codepoint is a colon, otherwise one digit), a colon, exactly two
digit codepoints of minutes.  Returns hours, minutes, rest. -/
def hmAt : List Nat → Option (Nat × Nat × List Nat)
  | a :: b :: c :: d1 :: d2 :: rest =>
    if isDigitC a && isDigitC b && c = 58 && isDigitC d1 && isDigitC d2 then
      some ((a - 48) * 10 + (b - 48), (d1 - 48) * 10 + (d2 - 48), rest)
    else if isDigitC a && b = 58 && isDigitC c && isDigitC d1 then
      some (a - 48, (c - 48) * 10 + (d1 - 48), d2 :: rest)
    else none
  | [a, b, c, d1] =>
    if isDigitC a && b = 58 && isDigitC c && isDigitC d1 then
      some (a - 48, (c - 48) * 10 + (d1 - 48), [])
    else none
  | _ => none

/-- Position matcher for `/(\d{1,2}):(\d{2})\s*(AM|PM)/i`: the boolean is
`true` for PM. -/
def ampmAt (l : List Nat) : Option (Nat × Nat × Bool) :=
  match hmAt l with
  | none => none
  | some (h, m, rest) =>
    let r := skipWs rest
    match matchLit (str2n (r"am")) r with
    | some _ => some (h, m, false)
    | none =>
      match matchLit (str2n (r"pm")) r with
      | some _ => some (h, m, true)
      | none => none

/-- Position matcher for `/(?:at|until|by)\s+(\d{1,2}):(\d{2})/i`. -/
def clock24At (l : List Nat) : Option (Nat × Nat) :=
  let kw : Option (List Nat) :=
    match matchLit (str2n (r"at")) l with
    | some r => some r
    | none =>
      match matchLit (str2n (r"until")) l with
      | some r => some r
      | none => matchLit (str2n (r"by")) l
  match kw with
  | none => none
  | some r1 =>
  match matchWs1 r1 with
  | none => none
  | some r2 =>
    match hmAt r2 with
    | none => none
    | some (h, m, _) => some (h, m)

/-- Milliseconds in a day (`target.setDate(target.getDate() + 1)`). -/
def dayMs : Nat := 86400000

/-- `target.setHours(h, m, 0, 0)`: milliseconds since local midnight of the
clock target (hour overflow rolls forward, as JavaScript `Date` normalises). -/
def clockTargetMs (h m : Nat) : Nat := (h * 60 + m) * 60000

/-- `Math.max(1, Math.ceil((target - now) / 60000))` after the
roll-to-tomorrow adjustment `if (target <= new Date()) target.setDate(...)`;
`now` is milliseconds since local midnight. -/
def clockWaitMin (h m now : Nat) : Nat :=
  max 1 (ceilDiv
    ((if clockTargetMs h m ≤ now then clockTargetMs h m + dayMs else clockTargetMs h m) - now)
    60000)

/-- The AM/PM to 24-hour conversion of the parser:
`if (ampm === 'PM' && hours !== 12) hours += 12; if (ampm === 'AM' && hours === 12) hours = 0;`. -/
def h12to24 (h : Nat) (isPM : Bool) : Nat :=
  if isPM then (if h ≠ 12 then h + 12 else h)
  else (if h = 12 then 0 else h)

/-- The specification's formula `ceil(X·60)` for a decimal capture with
integer digits `int` and fraction digits `frac`: the exact integer
`⌈60·(int·10^k + frac) / 10^k⌉`, computed by ceiling division.  The code
computes `Math.ceil(parseFloat(capture) * 60)` in binary64 instead
(`jsHoursTimes60Ceil`); the two differ at captures such as `4.15`. -/
def ceil60 (int frac : List Nat) : Nat :=
  ceilDiv (60 * (digitsVal int * 10 ^ frac.length + digitsVal frac)) (10 ^ frac.length)

/-- The reset-time parser `extractResetTime(text)` of `src/hook-handler.js`.
`now` is the current wall-clock instant as milliseconds since local
midnight; the result is the computed wait in minutes (`null` embedded as
`none`).  The six patterns are tried in the source's order, first match
wins. -/
def extractResetTime (text : List Nat) (now : Nat) : Option ℚ :=
  match firstMatch hoursAt text with
  | some (ds, fr) => some ((jsHoursTimes60Ceil ds fr : Nat) : ℚ)
  | none =>
  match firstMatch minutesAt text with
  | some n => some (n : ℚ)
  | none =>
  match firstMatch secondsAt text with
  | some n => some (jsMax (mkRat 1 2) (mkRat n 60))
  | none =>
  match firstMatch retryAt text with
  | some n => some ((max 1 (ceilDiv n 60) : Nat) : ℚ)
  | none =>
  match firstMatch ampmAt text with
  | some (h, m, pm) => some ((clockWaitMin (h12to24 h pm) m now : Nat) : ℚ)
  | none =>
  match firstMatch clock24At text with
  | some (h, m) =>
    if h ≤ 23 && m ≤ 59 then some ((clockWaitMin h m now : Nat) : ℚ)
    else none
  | none => none

/-! ## The hook entry point (`handleHook` in `src/hook-handler.js`)

The entry point reads the event payload, classifies the collected text,
checks the PID file (the liveness record), extracts the reset time and
spawns the daemon with `resetMinutes || defaultWait`.  The filesystem and
process environment is embedded explicitly: `pidFile` is the content of
`alarm.pid` when it exists, `live pid` is the outcome of the zero-signal
probe `process.kill(pid, 0)`, and `configDefault` is the
`defaultWaitMinutes` value of a readable config file. -/

/-- The action the hook entry point finally takes. -/
inductive HookAction where
  | exitNoSpawn
  | spawnDaemon (waitMinutes : ℚ)
deriving DecidableEq

/-- `config.defaultWaitMinutes || 240` with an unreadable config treated
as absent (the surrounding `try/catch` keeps `defaultWait = 240`); `0` is
falsy in JavaScript, so a configured value of `0` also yields `240`. -/
def defaultWaitOf : Option ℚ → ℚ
  | none => 240
  | some d => if d = 0 then 240 else d

/-- The spawn tail of `handleHook`: `waitMinutes = resetMinutes || defaultWait`
(the parser result `null` and the falsy `0` both fall back), then spawn the
daemon with that wait. -/
def spawnWith (text : List Nat) (now : Nat) (configDefault : Option ℚ) : HookAction :=
  let defaultWait := defaultWaitOf configDefault
  match extractResetTime text now with
  | none => .spawnDaemon defaultWait
  | some resetMinutes =>
    .spawnDaemon (if resetMinutes = 0 then defaultWait else resetMinutes)

/-- `handleHook` of `src/hook-handler.js`: exit when the text does not
classify as a rate limit; exit when a PID file names a live process;
remove a stale PID file and continue; otherwise spawn the daemon. -/
def handleHook (text : List Nat) (now : Nat) (pidFile : Option Nat)
    (live : Nat → Bool) (configDefault : Option ℚ) : HookAction :=
  if matchesRateLimit text = false then .exitNoSpawn
  else
    match pidFile with
    | some pid => if live pid then .exitNoSpawn else spawnWith text now configDefault
    | none => spawnWith text now configDefault

/-! ## The liveness store (`isAlarmRunning` in `src/setup.js`, PID
management in `alarm-daemon.js`)

The store state is the content of `alarm.pid` (`none` when the file is
absent); `live` is the process-liveness oracle behind `process.kill(pid, 0)`. -/

/-- `claim`: the daemon start writes its own PID
(`fs.writeFileSync(PID_FILE, String(process.pid))`). -/
def claimPid (pid : Nat) (_fs : Option Nat) : Option Nat := some pid

/-- `release`: `cleanup()` unlinks the PID file inside `try {} catch {}`,
so it tolerates the record being absent. -/
def cleanupPid (_fs : Option Nat) : Option Nat := none

/-- `isAlarmRunning()` of `src/setup.js`: no file means not running; a
file naming a live process means running; a file naming a dead process is
unlinked (self-healing reap) and the answer is `false`.  Returns the
answer together with the filesystem state it leaves behind. -/
def isAlarmRunning (live : Nat → Bool) : Option Nat → Bool × Option Nat
  | none => (false, none)
  | some pid => if live pid then (true, some pid) else (false, none)

/-! ## The daemon scheduling state machine

The dual-timer daemon variant embedded in `src/hook-handler.js`
(lines 491-533 of the concatenated file) computes
`targetTime = Date.now() + waitMs`, keeps an `alarmFired` flag, runs a
`setInterval` checker every 30 seconds that fires when
`Date.now() >= targetTime`, and a direct `setTimeout(fireAlarm, waitMs)`
fast path; `fireAlarm` returns immediately when `alarmFired` is already
set and otherwise sets the flag, clears both timers and performs the
first-fire actions.  The standalone `src/alarm-daemon.js` installs only
the direct `setTimeout` — no periodic checker.

States carry the wall clock, the target, the guard flag, which timers are
still installed, and how many times the first-fire actions have run. -/

structure SchedState where
  now : Nat
  targetTime : Nat
  alarmFired : Bool
  checkerActive : Bool
  directActive : Bool
  fireCount : Nat
deriving DecidableEq

/-- `fireAlarm()` of the dual-timer daemon: the `alarmFired` guard, then
`clearInterval(checker); clearTimeout(directTimeout)` and the alert
actions (counted by `fireCount`). -/
def fireAlarm (s : SchedState) : SchedState :=
  if s.alarmFired then s
  else { s with alarmFired := true, checkerActive := false, directActive := false,
                fireCount := s.fireCount + 1 }

/-- Events of a scheduler run: wall-clock time passing, one checker
interval tick, and the direct timeout firing. -/
inductive SchedEvent where
  | tick (d : Nat)
  | checkerFire
  | directFire

/-- One event of the event loop.  The checker tick runs
`if (Date.now() >= targetTime) fireAlarm()` while the interval is
installed; the direct timeout can run only once its relative delay has
elapsed (`now ≥ targetTime`) and consumes itself. -/
def schedStep (s : SchedState) : SchedEvent → SchedState
  | .tick d => { s with now := s.now + d }
  | .checkerFire =>
    if s.checkerActive then (if s.targetTime ≤ s.now then fireAlarm s else s) else s
  | .directFire =>
    if s.directActive then
      (if s.targetTime ≤ s.now then fireAlarm { s with directActive := false } else s)
    else s

/-- A scheduler run: fold the event list over `schedStep`. -/
def schedRun (s : SchedState) : List SchedEvent → SchedState
  | [] => s
  | e :: es => schedRun (schedStep s e) es

/-- The 30-second checker interval of the dual-timer daemon
(`setInterval(..., 30 * 1000)`). -/
def checkerIntervalMs : Nat := 30 * 1000

/-- Initial state of a non-test run of the dual-timer daemon: target is
launch time plus wait, guard clear, both the periodic checker and the
direct timeout installed. -/
def dualTimerInit (launch waitMs : Nat) : SchedState :=
  { now := launch, targetTime := launch + waitMs, alarmFired := false,
    checkerActive := true, directActive := true, fireCount := 0 }

/-- Initial state of a non-test run of the standalone `src/alarm-daemon.js`:
only `setTimeout(..., waitMs)` is installed — there is no periodic
wall-clock re-check. -/
def plainDaemonInit (launch waitMs : Nat) : SchedState :=
  { now := launch, targetTime := launch + waitMs, alarmFired := false,
    checkerActive := false, directActive := true, fireCount := 0 }

/-- The guard invariant: the first-fire actions have run exactly once when
`alarmFired` is set and never otherwise. -/
def FireInv (s : SchedState) : Prop := s.fireCount = (if s.alarmFired then 1 else 0)

/-! ## The daemon wait-argument parsers -/

/-- Sign prefix of a JavaScript numeric string: `true` for a leading `-`. -/
def signSplit : List Nat → Bool × List Nat
  | 45 :: cs => (true, cs)
  | 43 :: cs => (false, cs)
  | l => (false, l)

/-- `parseInt(str)` (radix 10; hexadecimal `0x` prefixes are not used by
this code base and are not modelled): skip whitespace, optional sign,
a leading digit run; no digits means `NaN`, embedded as `none`. -/
def jsParseInt (s : List Nat) : Option ℤ :=
  let t := skipWs s
  let neg := (signSplit t).1
  let t2 := (signSplit t).2
  let ds := (takeDigitsFrom t2)
  if ds.isEmpty then none
  else some (if neg then -(digitsVal ds : ℤ) else (digitsVal ds : ℤ))
where
  takeDigitsFrom (l : List Nat) : List Nat := (takeDigits l).1

/-- `parseFloat(str)` on the decimal forms this code base passes
(optional sign, digits, optional fraction; exponents and `Infinity`
literals are outside the exact-rational model): `NaN` is `none`. -/
def jsParseFloat (s : List Nat) : Option ℚ :=
  let t := skipWs s
  let neg := (signSplit t).1
  let t2 := (signSplit t).2
  let ds := (takeDigits t2).1
  let r := (takeDigits t2).2
  let fr := (fracPart r).1
  if ds.isEmpty && fr.isEmpty then none
  else
    let mag : ℤ := digitsVal ds * 10 ^ fr.length + digitsVal fr
    some (mkRat (if neg then -mag else mag) (10 ^ fr.length))

/-- The wait-argument logic of the standalone `src/alarm-daemon.js`
(lines 66-69): `isTestMode ? 0 : waitArg !== undefined ?
parseInt(waitArg) || config.defaultWaitMinutes : config.defaultWaitMinutes`.
`NaN` and `0` are falsy, any other parsed integer — including a negative
one — is used as is. -/
def waitMinutesInt (isTest : Bool) (arg : Option (List Nat)) (dflt : ℚ) : ℚ :=
  if isTest then 0 else
  match arg with
  | none => dflt
  | some a =>
    match jsParseInt a with
    | none => dflt
    | some z => if z = 0 then dflt else (z : ℚ)

/-- The wait-argument logic of the daemon variants embedded in
`src/hook-handler.js` (lines 214-217 and 472-484):
`parsedWait = parseFloat(waitArg)` (or `NaN` when absent), then
`!isNaN(parsedWait) && parsedWait >= 0 ? parsedWait : config.defaultWaitMinutes`. -/
def waitMinutesFloat (isTest : Bool) (arg : Option (List Nat)) (dflt : ℚ) : ℚ :=
  if isTest then 0 else
  match arg with
  | none => dflt
  | some a =>
    match jsParseFloat a with
    | none => dflt
    | some q => if 0 ≤ q then q else dflt

/-! ## The CLI `start` command (`parseTime` and `manualStart` in `src/setup.js`) -/

/-- `str.trim()`. -/
def trimWs (s : List Nat) : List Nat :=
  ((s.dropWhile (fun c => isWsC c)).reverse.dropWhile (fun c => isWsC c)).reverse

/-- `^(\d+\.?\d*)h$` on the trimmed, lower-cased input:
`Math.ceil(parseFloat(capture) * 60)` in binary64 arithmetic. -/
def hourPat (t : List Nat) : Option Nat :=
  let ds := (takeDigits t).1
  let r := (takeDigits t).2
  if ds.isEmpty then none
  else
    let fr := (fracPart r).1
    let r2 := (fracPart r).2
    if r2 = [104] then some (jsHoursTimes60Ceil ds fr) else none

/-- `^(\d+)m$`. -/
def minPat (t : List Nat) : Option Nat :=
  let ds := (takeDigits t).1
  if ds.isEmpty then none
  else if (takeDigits t).2 = [109] then some (digitsVal ds) else none

/-- `^(\d+)$` (bare integer minutes). -/
def numPat (t : List Nat) : Option Nat :=
  let ds := (takeDigits t).1
  if ds.isEmpty then none
  else if (takeDigits t).2 = [] then some (digitsVal ds) else none

/-- `parseTime(str)` of `src/setup.js`: trim and lower-case, then try the
hour form `Nh`, the minute form `Nm`, and bare minutes `N`; anything else
— including the advertised seconds form `Ns` — yields `0`. -/
def parseTime (s : List Nat) : Nat :=
  let t := (trimWs s).map lcn
  match hourPat t with
  | some n => n
  | none =>
  match minPat t with
  | some n => n
  | none =>
  match numPat t with
  | some n => n
  | none => 0

/-- Exit behaviour of `manualStart`. -/
inductive StartOutcome where
  | exit1Usage
  | exit1Invalid
  | exit1Active
  | started (minutes : Nat)
deriving DecidableEq

/-- `manualStart(timeArg)` of `src/setup.js`: missing argument prints
usage and exits 1; `parseTime` result `<= 0` exits 1; a running alarm
exits 1; otherwise the daemon is spawned with the parsed minutes and the
process ends with code 0. -/
def manualStart (timeArg : Option (List Nat)) (alarmRunning : Bool) : StartOutcome :=
  match timeArg with
  | none => .exit1Usage
  | some a =>
    let minutes := parseTime a
    if minutes = 0 then .exit1Invalid
    else if alarmRunning then .exit1Active
    else .started minutes

/-- Process exit code of a `start` outcome. -/
def startExitCode : StartOutcome → Nat
  | .started _ => 0
  | _ => 1

/-! ## Sanity checks: concrete runs of the embedded code -/

example : extractResetTime (str2n (r"in 2 hours")) 0 = some 120 := by decide
example : extractResetTime (str2n (r"in 45 minutes")) 0 = some 45 := by decide
example : extractResetTime (str2n (r"in 90 seconds")) 0 = some (mkRat 3 2) := by decide
example : extractResetTime (str2n (r"at 15:00")) 50400000 = some 60 := by decide
example : matchesRateLimit (str2n (r"Rate limit reached")) = true := by decide
example : matchesRateLimit (str2n (r"hello world")) = false := by decide
example : matchesRateLimit (str2n (r"HTTP 429 error")) = true := by decide
example : matchesRateLimit (str2n (r"error 4290")) = false := by decide
example : parseTime (str2n (r"4h")) = 240 := by decide
example : parseTime (str2n (r"240")) = 240 := by decide
example : waitMinutesFloat false (some (str2n (r"2.5"))) 240 = mkRat 5 2 := by decide
example : waitMinutesFloat false (some (str2n (r"-5"))) 240 = 240 := by decide

/-! ## Helper lemmas -/

/-- `jsMax` is the lattice `max`. -/
theorem jsMax_eq_max (a b : ℚ) : jsMax a b = max a b := (max_def a b).symm

/-- `FireInv` is preserved by every scheduler event. -/
theorem fireInv_step (s : SchedState) (e : SchedEvent) (h : FireInv s) :
    FireInv (schedStep s e) := by
  cases e with
  | tick d => simpa [schedStep, FireInv] using h
  | checkerFire =>
    rw [schedStep]
    split
    · split
      · rw [FireInv] at h ⊢
        rw [fireAlarm]
        split <;> simp_all
      · exact h
    · exact h
  | directFire =>
    rw [schedStep]
    split
    · split
      · rw [FireInv] at h ⊢
        rw [fireAlarm]
        split <;> simp_all
      · exact h
    · exact h

/-- `FireInv` is preserved by whole runs. -/
theorem fireInv_run (events : List SchedEvent) (s : SchedState) (h : FireInv s) :
    FireInv (schedRun s events) := by
  induction events generalizing s with
  | nil => simpa [schedRun] using h
  | cons e es ih => exact ih (schedStep s e) (fireInv_step s e h)

/-! ## Claim theorems -/

/-- Claim C3, amended.  In the dual-timer daemon variant every non-test
run installs both the periodic 30-second wall-clock re-check and the
direct relative-delay timeout, the first-fire actions run at most once in
any run, and from a state where both paths are simultaneously eligible
executing them in either order fires exactly once; the standalone
`alarm-daemon.js` variant installs only the direct relative-delay timeout
and no periodic re-check. -/
theorem c3_dual_timer_single_fire :
    (∀ launch waitMs, (dualTimerInit launch waitMs).checkerActive = true ∧
      (dualTimerInit launch waitMs).directActive = true ∧
      (dualTimerInit launch waitMs).targetTime = launch + waitMs) ∧
    checkerIntervalMs = 30000 ∧
    (∀ launch waitMs events,
      (schedRun (dualTimerInit launch waitMs) events).fireCount ≤ 1) ∧
    (∀ s : SchedState, FireInv s → s.alarmFired = false → s.checkerActive = true →
      s.directActive = true → s.targetTime ≤ s.now →
      (schedRun s [SchedEvent.checkerFire, SchedEvent.directFire]).fireCount =
        s.fireCount + 1 ∧
      (schedRun s [SchedEvent.directFire, SchedEvent.checkerFire]).fireCount =
        s.fireCount + 1) ∧
    (∀ launch waitMs, (plainDaemonInit launch waitMs).checkerActive = false ∧
      (plainDaemonInit launch waitMs).directActive = true) := by
  refine ⟨fun launch waitMs => ⟨rfl, rfl, rfl⟩, rfl, ?_, ?_, fun launch waitMs => ⟨rfl, rfl⟩⟩
  · intro launch waitMs events
    have h0 : FireInv (dualTimerInit launch waitMs) := by
      simp [FireInv, dualTimerInit]
    have h := fireInv_run events (dualTimerInit launch waitMs) h0
    rw [FireInv] at h
    split at h <;> omega
  · intro s hinv hf hc hd ht
    rw [FireInv, hf] at hinv
    constructor <;>
      simp [schedRun, schedStep, fireAlarm, hf, hc, hd, ht, hinv]

/-- Claim C3, counterexample to the claim as stated: a non-test run of the
standalone `alarm-daemon.js` scheduler (here with the default 240-minute
wait) installs no periodic wall-clock re-check at all. -/
theorem c3_plain_daemon_has_no_checker :
    (plainDaemonInit 0 14400000).checkerActive = false := rfl

/-- Claim C3, witness: a concrete state with both firing paths eligible at
once fires exactly once in either execution order. -/
theorem c3_simultaneous_fire_witness :
    (schedRun ⟨100, 50, false, true, true, 0⟩
      [SchedEvent.checkerFire, SchedEvent.directFire]).fireCount = 0 + 1 ∧
    (schedRun ⟨100, 50, false, true, true, 0⟩
      [SchedEvent.directFire, SchedEvent.checkerFire]).fireCount = 0 + 1 := by
  exact c3_dual_timer_single_fire.2.2.2.1 ⟨100, 50, false, true, true, 0⟩
    (by simp [FireInv]) rfl rfl rfl (by simp)

/-- Claim C4: when the collected hook text classifies as a rate limit and
the PID file names a process that the zero-signal probe confirms live, the
hook entry point exits without spawning a second scheduler. -/
theorem c4_no_second_scheduler (text : List Nat) (now : Nat) (pid : Nat)
    (live : Nat → Bool) (configDefault : Option ℚ)
    (hmatch : matchesRateLimit text = true) (hlive : live pid = true) :
    handleHook text now (some pid) live configDefault = HookAction.exitNoSpawn := by
  simp [handleHook, hmatch, hlive]

/-- Claim C4, witness: a concrete rate-limited hook invocation with a live
recorded PID exits without spawning. -/
theorem c4_witness :
    handleHook (str2n (r"Usage limit reached")) 0 (some 123) (fun _ => true) none =
      HookAction.exitNoSpawn :=
  c4_no_second_scheduler (str2n (r"Usage limit reached")) 0 123 (fun _ => true) none
    (by decide) rfl

/-- Claim C6: after `claim` of a live process, `isActive` is true; after
`release`, `isActive` is false; `isActive` on a record naming a dead
process answers false and deletes the record; `release` is idempotent and
tolerates an absent record. -/
theorem c6_liveness_store :
    (∀ live fs pid, live pid = true →
      (isAlarmRunning live (claimPid pid fs)).1 = true) ∧
    (∀ live fs, isAlarmRunning live (cleanupPid fs) = (false, none)) ∧
    (∀ live pid, live pid = false →
      isAlarmRunning live (some pid) = (false, none)) ∧
    (∀ fs, cleanupPid (cleanupPid fs) = cleanupPid fs) ∧
    cleanupPid none = none := by
  refine ⟨?_, ?_, ?_, fun fs => rfl, rfl⟩
  · intro live fs pid h
    simp [isAlarmRunning, claimPid, h]
  · intro live fs
    simp [isAlarmRunning, cleanupPid]
  · intro live pid h
    simp [isAlarmRunning, h]

/-- Claim C6, witness: a concrete claim-then-probe run where the recorded
process is live. -/
theorem c6_witness :
    (isAlarmRunning (fun _ => true) (claimPid 7 none)).1 = true :=
  c6_liveness_store.1 (fun _ => true) none 7 rfl

/-- Claim C7, counterexample to the claim as stated: the standalone
`alarm-daemon.js` parses its wait argument with
`parseInt(waitArg) || default`, so the argument `-5` yields an effective
wait of `-5` minutes — negative input is not discarded there. -/
theorem c7_negative_wait_counterexample :
    waitMinutesInt false (some (str2n (r"-5"))) 240 < 0 := by decide

/-- Claim C7, amended.  In the `parseFloat`-based daemon variants the
effective wait is never negative, negative or non-numeric arguments fall
back to the configured default, and a zero argument is kept (immediate
fire); the `parseInt`-based standalone `alarm-daemon.js` instead uses a
negative numeric argument as is and treats a zero argument as falsy,
falling back to the default.  Test mode forces a zero wait in both. -/
theorem c7_wait_argument_policy :
    (∀ arg dflt, 0 ≤ dflt → 0 ≤ waitMinutesFloat false arg dflt) ∧
    (∀ a dflt q, jsParseFloat a = some q → q < 0 →
      waitMinutesFloat false (some a) dflt = dflt) ∧
    (∀ a dflt, jsParseFloat a = none → waitMinutesFloat false (some a) dflt = dflt) ∧
    waitMinutesFloat false (some (str2n (r"0"))) 240 = 0 ∧
    (∀ dflt, waitMinutesInt false (some (str2n (r"-5"))) dflt = -5) ∧
    (∀ dflt, waitMinutesInt false (some (str2n (r"0"))) dflt = dflt) ∧
    (∀ arg dflt, waitMinutesInt true arg dflt = 0 ∧ waitMinutesFloat true arg dflt = 0) := by
  refine ⟨?_, ?_, ?_, by decide, ?_, ?_, fun arg dflt => ⟨rfl, rfl⟩⟩
  · intro arg dflt hd
    cases arg with
    | none => simpa [waitMinutesFloat] using hd
    | some a =>
      rw [waitMinutesFloat]
      cases h : jsParseFloat a with
      | none => simpa using hd
      | some q =>
        by_cases hq : 0 ≤ q
        · simp [hq]
        · simpa [hq] using hd
  · intro a dflt q h hq
    rw [waitMinutesFloat, h]
    simp [not_le.mpr hq]
  · intro a dflt h
    rw [waitMinutesFloat, h]
    simp
  · intro dflt
    have h : jsParseInt (str2n (r"-5")) = some (-5) := by decide
    rw [waitMinutesInt]
    simp [h]
  · intro dflt
    have h : jsParseInt (str2n (r"0")) = some 0 := by decide
    rw [waitMinutesInt]
    simp [h]

/-- Claim C7, witness: the guarded variant discards the concrete negative
argument `-3.5` in favour of the default. -/
theorem c7_witness :
    waitMinutesFloat false (some (str2n (r"-3.5"))) 240 = 240 :=
  c7_wait_argument_policy.2.1 (str2n (r"-3.5")) 240 (mkRat (-7) 2) (by decide) (by decide)

/-- Claim C8: the CLI advertises the seconds form (`start 30s`, `start 90s`
in the help text and examples), but `parseTime` recognises only `Nh`, `Nm`
and bare minutes, so `start 90s` is rejected with exit code 1 while the
advertised sibling forms succeed with exit code 0 and a running alarm
yields exit code 1. -/
theorem c8_seconds_form_rejected :
    parseTime (str2n (r"90s")) = 0 ∧
    manualStart (some (str2n (r"90s"))) false = StartOutcome.exit1Invalid ∧
    startExitCode (manualStart (some (str2n (r"90s"))) false) = 1 ∧
    manualStart (some (str2n (r"4h"))) false = StartOutcome.started 240 ∧
    manualStart (some (str2n (r"30m"))) false = StartOutcome.started 30 ∧
    manualStart (some (str2n (r"120"))) false = StartOutcome.started 120 ∧
    startExitCode (manualStart (some (str2n (r"120"))) false) = 0 ∧
    manualStart (some (str2n (r"30m"))) true = StartOutcome.exit1Active ∧
    startExitCode (manualStart (some (str2n (r"30m"))) true) = 1 ∧
    manualStart none false = StartOutcome.exit1Usage := by
  refine ⟨by decide, by decide, by decide, by decide, by decide,
    by decide, by decide, by decide, by decide, rfl⟩

/-- Claim C10: a hook input whose extracted reset time is `0` (and likewise
one whose extraction fails) makes the entry point pass the configured
default wait — never `0` — to the spawned scheduler, because the fallback
is the falsy-or `resetMinutes || defaultWait`. -/
theorem c10_zero_parse_falls_back :
    (∀ text now live configDefault, matchesRateLimit text = true →
      extractResetTime text now = some 0 →
      handleHook text now none live configDefault =
        HookAction.spawnDaemon (defaultWaitOf configDefault)) ∧
    (∀ text now live configDefault, matchesRateLimit text = true →
      extractResetTime text now = none →
      handleHook text now none live configDefault =
        HookAction.spawnDaemon (defaultWaitOf configDefault)) := by
  constructor
  · intro text now live configDefault hmatch hparse
    simp [handleHook, spawnWith, hmatch, hparse]
  · intro text now live configDefault hmatch hparse
    simp [handleHook, spawnWith, hmatch, hparse]

/-- Claim C10, witness: a concrete rate-limited text announcing a reset
`in 0 minutes` spawns the scheduler with the default 240-minute wait. -/
theorem c10_witness :
    handleHook (str2n (r"rate limit, try again in 0 minutes")) 0 none
      (fun _ => false) none = HookAction.spawnDaemon 240 := by
  have h := c10_zero_parse_falls_back.1 (str2n (r"rate limit, try again in 0 minutes"))
    0 (fun _ => false) none (by decide) (by decide)
  simpa [defaultWaitOf] using h

/-! ### Branch equations of the reset-time parser -/

/-- A successful hours capture decides the parser. -/
theorem ert_hours (text : List Nat) (now : Nat) (ds fr : List Nat)
    (h1 : firstMatch hoursAt text = some (ds, fr)) :
    extractResetTime text now = some ((jsHoursTimes60Ceil ds fr : Nat) : ℚ) := by
  rw [extractResetTime, h1]

/-- With no hours match, a minutes capture decides the parser. -/
theorem ert_minutes (text : List Nat) (now : Nat) (n : Nat)
    (h1 : firstMatch hoursAt text = none)
    (h2 : firstMatch minutesAt text = some n) :
    extractResetTime text now = some (n : ℚ) := by
  rw [extractResetTime, h1, h2]

/-- With no hours or minutes match, a seconds capture decides the parser. -/
theorem ert_seconds (text : List Nat) (now : Nat) (n : Nat)
    (h1 : firstMatch hoursAt text = none)
    (h2 : firstMatch minutesAt text = none)
    (h3 : firstMatch secondsAt text = some n) :
    extractResetTime text now = some (jsMax (mkRat 1 2) (mkRat n 60)) := by
  rw [extractResetTime, h1, h2, h3]

/-- With no relative match, a retry-after capture decides the parser. -/
theorem ert_retry (text : List Nat) (now : Nat) (n : Nat)
    (h1 : firstMatch hoursAt text = none)
    (h2 : firstMatch minutesAt text = none)
    (h3 : firstMatch secondsAt text = none)
    (h4 : firstMatch retryAt text = some n) :
    extractResetTime text now = some ((max 1 (ceilDiv n 60) : Nat) : ℚ) := by
  rw [extractResetTime, h1, h2, h3, h4]

/-- With none of the relative or retry patterns matching, a 12-hour clock
capture decides the parser. -/
theorem ert_ampm (text : List Nat) (now : Nat) (h m : Nat) (pm : Bool)
    (h1 : firstMatch hoursAt text = none)
    (h2 : firstMatch minutesAt text = none)
    (h3 : firstMatch secondsAt text = none)
    (h4 : firstMatch retryAt text = none)
    (h5 : firstMatch ampmAt text = some (h, m, pm)) :
    extractResetTime text now = some ((clockWaitMin (h12to24 h pm) m now : Nat) : ℚ) := by
  rw [extractResetTime, h1, h2, h3, h4, h5]

/-- With every earlier pattern failing, a 24-hour clock capture in range
decides the parser. -/
theorem ert_clock24 (text : List Nat) (now : Nat) (h m : Nat)
    (h1 : firstMatch hoursAt text = none)
    (h2 : firstMatch minutesAt text = none)
    (h3 : firstMatch secondsAt text = none)
    (h4 : firstMatch retryAt text = none)
    (h5 : firstMatch ampmAt text = none)
    (h6 : firstMatch clock24At text = some (h, m))
    (hh : h ≤ 23) (hm : m ≤ 59) :
    extractResetTime text now = some ((clockWaitMin h m now : Nat) : ℚ) := by
  rw [extractResetTime, h1, h2, h3, h4, h5, h6]
  simp [hh, hm]

/-- When no pattern matches, the parser answers `unknown`. -/
theorem ert_none (text : List Nat) (now : Nat)
    (h1 : firstMatch hoursAt text = none)
    (h2 : firstMatch minutesAt text = none)
    (h3 : firstMatch secondsAt text = none)
    (h4 : firstMatch retryAt text = none)
    (h5 : firstMatch ampmAt text = none)
    (h6 : firstMatch clock24At text = none) :
    extractResetTime text now = none := by
  rw [extractResetTime, h1, h2, h3, h4, h5, h6]

/-! ### Arithmetic bridges between the executable integer forms and the
mathematical formulas of the specification -/

/-- The ceiling division bounds: `n ≤ d·⌈n/d⌉ < n + d`. -/
theorem ceilDiv_le_bounds (n d : Nat) (hd : 0 < d) :
    n ≤ d * ceilDiv n d ∧ d * ceilDiv n d < n + d := by
  rw [ceilDiv]
  set e := n + d - 1 with he
  have hen : e + 1 = n + d := by omega
  have h1 : (d : ℤ) * ((e / d : ℕ) : ℤ) + ((e % d : ℕ) : ℤ) = ((e : ℕ) : ℤ) := by
    exact_mod_cast Nat.div_add_mod e d
  have h2 : ((e % d : ℕ) : ℤ) < (d : ℤ) := by exact_mod_cast Nat.mod_lt e hd
  have h3 : (1 : ℤ) ≤ (d : ℤ) := by exact_mod_cast hd
  have h4 : (0 : ℤ) ≤ ((e % d : ℕ) : ℤ) := Int.ofNat_nonneg _
  have h5 : ((e : ℕ) : ℤ) + 1 = (n : ℤ) + (d : ℤ) := by exact_mod_cast hen
  constructor
  · have : (n : ℤ) ≤ (d : ℤ) * ((e / d : ℕ) : ℤ) := by linarith
    exact_mod_cast this
  · have : (d : ℤ) * ((e / d : ℕ) : ℤ) < (n : ℤ) + (d : ℤ) := by linarith
    exact_mod_cast this

/-- `ceilDiv` is the mathematical ceiling of the rational quotient. -/
theorem ceilDiv_eq_ceil (n d : Nat) (hd : 0 < d) :
    ((ceilDiv n d : Nat) : ℤ) = ⌈(n : ℚ) / (d : ℚ)⌉ := by
  obtain ⟨h1, h2⟩ := ceilDiv_le_bounds n d hd
  have hd' : (0 : ℚ) < (d : ℚ) := by exact_mod_cast hd
  rw [eq_comm, Int.ceil_eq_iff]
  constructor
  · rw [lt_div_iff₀ hd']
    have h2' : (d : ℚ) * (ceilDiv n d : ℚ) < (n : ℚ) + d := by exact_mod_cast h2
    push_cast
    linarith
  · rw [div_le_iff₀ hd']
    have h1' : (n : ℚ) ≤ (d : ℚ) * (ceilDiv n d : ℚ) := by exact_mod_cast h1
    push_cast
    linarith

/-- `mkRat` of a natural numerator and denominator is the rational quotient. -/
theorem mkRat_natCast (n d : Nat) : mkRat (n : ℤ) d = (n : ℚ) / (d : ℚ) := by
  rw [Rat.mkRat_eq_divInt, Rat.divInt_eq_div]
  push_cast
  rfl

/-- `ceil60` computes `⌈parseFloat(capture) · 60⌉`. -/
theorem ceil60_spec (int frac : List Nat) :
    ((ceil60 int frac : Nat) : ℚ) = ((⌈capVal int frac * 60⌉ : ℤ) : ℚ) := by
  have hd : 0 < 10 ^ frac.length := pow_pos (by norm_num) _
  have key : capVal int frac * 60 =
      ((60 * (digitsVal int * 10 ^ frac.length + digitsVal frac) : Nat) : ℚ) /
        ((10 ^ frac.length : Nat) : ℚ) := by
    rw [capVal, mkRat_natCast]
    push_cast
    ring
  rw [ceil60, key, ← ceilDiv_eq_ceil _ _ hd]
  push_cast
  rfl

/-- The executable seconds value is `max(1/2, n/60)`. -/
theorem seconds_val_spec (n : Nat) :
    jsMax (mkRat 1 2) (mkRat n 60) = max (1 / 2 : ℚ) ((n : ℚ) / 60) := by
  rw [jsMax_eq_max]
  have e1 : mkRat 1 2 = (1 / 2 : ℚ) := by
    rw [Rat.mkRat_eq_divInt, Rat.divInt_eq_div]
    norm_num
  have e2 : mkRat (n : ℤ) 60 = (n : ℚ) / 60 := by
    rw [mkRat_natCast n 60]
    norm_num
  rw [e1, e2]

/-- The executable retry-after value is `max(1, ⌈n/60⌉)`. -/
theorem retry_val_spec (n : Nat) :
    ((max 1 (ceilDiv n 60) : Nat) : ℚ) = ((max 1 ⌈(n : ℚ) / 60⌉ : ℤ) : ℚ) := by
  have h := ceilDiv_eq_ceil n 60 (by norm_num)
  have h60 : ((60 : ℕ) : ℚ) = (60 : ℚ) := by norm_num
  rw [h60] at h
  rw [← h]
  push_cast [Nat.cast_max]
  norm_num

/-- A positive dividend gives a positive ceiling quotient. -/
theorem ceilDiv_pos (a b : Nat) (ha : 0 < a) (hb : 0 < b) : 1 ≤ ceilDiv a b := by
  rw [ceilDiv, Nat.le_div_iff_mul_le hb]
  omega

/-- Claim C1, counterexample to the claim as stated: the hours rule does
not return the exact `ceil(X*60)`.  On `in 4.15 hours` the program
computes `Math.ceil(parseFloat("4.15") * 60)` in binary64 arithmetic and
answers 250, while the claimed formula `⌈ 4.15 · 60 ⌉` is 249. -/
theorem c1_float_ceiling_counterexample :
    extractResetTime (str2n (r"in 4.15 hours")) 0 = some 250 ∧
    ((ceil60 (str2n (r"4")) (str2n (r"15")) : Nat) : ℚ) = 249 ∧
    ((⌈capVal (str2n (r"4")) (str2n (r"15")) * 60⌉ : ℤ) : ℚ) = 249 := by
  refine ⟨by decide, by decide, ?_⟩
  rw [← ceil60_spec]
  decide

/-- Claim C1, amended: the reset-time parser evaluates its patterns in
the fixed order — relative hours, relative minutes, relative seconds,
retry-after, 12-hour clock, 24-hour clock — with first match winning; for
`in X hours` it returns `Math.ceil(parseFloat(X) · 60)` computed in IEEE
binary64 arithmetic (which equals `⌈X·60⌉` for float-exact captures but
can exceed it by one, as on `4.15`); it returns `X` for `in X minutes`,
`max(1/2, X/60)` for `in X seconds`, `max(1, ⌈X/60⌉)` for
`retry-after: X`, and `unknown` when nothing matches; in particular the
parser maps `in 2 hours` to 120, `in 1.5 hours` to 90, `in 45 minutes`
to 45, `retry-after: 90` to 2, and `no timing info` to `unknown`,
independently of the current time. -/
theorem c1_parser_order_and_values :
    (∀ text now ds fr, firstMatch hoursAt text = some (ds, fr) →
      extractResetTime text now = some ((jsHoursTimes60Ceil ds fr : Nat) : ℚ)) ∧
    (∀ text now n, firstMatch hoursAt text = none →
      firstMatch minutesAt text = some n →
      extractResetTime text now = some (n : ℚ)) ∧
    (∀ text now n, firstMatch hoursAt text = none →
      firstMatch minutesAt text = none →
      firstMatch secondsAt text = some n →
      extractResetTime text now = some (max (1 / 2 : ℚ) ((n : ℚ) / 60))) ∧
    (∀ text now n, firstMatch hoursAt text = none →
      firstMatch minutesAt text = none →
      firstMatch secondsAt text = none →
      firstMatch retryAt text = some n →
      extractResetTime text now = some ((max 1 ⌈(n : ℚ) / 60⌉ : ℤ) : ℚ)) ∧
    (∀ text now, firstMatch hoursAt text = none →
      firstMatch minutesAt text = none →
      firstMatch secondsAt text = none →
      firstMatch retryAt text = none →
      firstMatch ampmAt text = none →
      firstMatch clock24At text = none →
      extractResetTime text now = none) ∧
    (∀ now, extractResetTime (str2n (r"in 2 hours")) now = some 120) ∧
    (∀ now, extractResetTime (str2n (r"in 1.5 hours")) now = some 90) ∧
    (∀ now, extractResetTime (str2n (r"in 45 minutes")) now = some 45) ∧
    (∀ now, extractResetTime (str2n (r"retry-after: 90")) now = some 2) ∧
    (∀ now, extractResetTime (str2n (r"no timing info")) now = none) := by
  refine ⟨ert_hours, ert_minutes, ?_, ?_, ert_none, ?_, ?_, ?_, ?_, ?_⟩
  · intro text now n h1 h2 h3
    rw [ert_seconds text now n h1 h2 h3, seconds_val_spec]
  · intro text now n h1 h2 h3 h4
    rw [ert_retry text now n h1 h2 h3 h4, retry_val_spec]
  · intro now
    rw [ert_hours _ now [50] [] (by decide)]
    decide
  · intro now
    rw [ert_hours _ now [49] [53] (by decide)]
    decide
  · intro now
    rw [ert_minutes _ now 45 (by decide) (by decide)]
    norm_num
  · intro now
    rw [ert_retry _ now 90 (by decide) (by decide) (by decide) (by decide)]
    decide
  · intro now
    exact ert_none _ now (by decide) (by decide) (by decide) (by decide)
      (by decide) (by decide)

/-- Claim C1, witness: the order clauses applied at concrete inputs. -/
theorem c1_witness :
    extractResetTime (str2n (r"in 45 minutes")) 0 = some 45 :=
  c1_parser_order_and_values.2.1 (str2n (r"in 45 minutes")) 0 45 (by decide) (by decide)

/-- When the clock target has already passed (or is exactly now), the wait
is the exact ceiling of the time to the target rolled to the next day. -/
theorem clockWaitMin_rolled (h m now : Nat) (hnow : now < dayMs)
    (ht : clockTargetMs h m ≤ now) :
    clockWaitMin h m now = ceilDiv (clockTargetMs h m + dayMs - now) 60000 := by
  rw [clockWaitMin, if_pos ht]
  exact max_eq_right (ceilDiv_pos _ _ (by omega) (by norm_num))

/-- When the clock target is still ahead today, the wait is the exact
ceiling of the remaining time. -/
theorem clockWaitMin_future (h m now : Nat) (ht : now < clockTargetMs h m) :
    clockWaitMin h m now = ceilDiv (clockTargetMs h m - now) 60000 := by
  rw [clockWaitMin, if_neg (by omega)]
  exact max_eq_right (ceilDiv_pos _ _ (by omega) (by norm_num))

/-- Claim C5: for every clock-time expression the parser matches (12-hour
`H:MM AM/PM`, or 24-hour `at/until/by H:MM` with hours in `[0,23]` and
minutes in `[0,59]`), the returned wait is the ceiling in minutes of the
time until that wall-clock time next occurs, is at least 1 and never
negative, and a target equal to or before the current instant rolls to
the next day; at current time 14:00, `at 15:00` yields 60 and `at 13:00`
yields 1380 minutes (23 hours). -/
theorem c5_clock_semantics :
    (∀ text now h m, now < dayMs →
      firstMatch hoursAt text = none → firstMatch minutesAt text = none →
      firstMatch secondsAt text = none → firstMatch retryAt text = none →
      firstMatch ampmAt text = none → firstMatch clock24At text = some (h, m) →
      h ≤ 23 → m ≤ 59 →
      extractResetTime text now = some ((clockWaitMin h m now : Nat) : ℚ) ∧
      1 ≤ clockWaitMin h m now ∧
      (clockTargetMs h m ≤ now →
        clockWaitMin h m now = ceilDiv (clockTargetMs h m + dayMs - now) 60000) ∧
      (now < clockTargetMs h m →
        clockWaitMin h m now = ceilDiv (clockTargetMs h m - now) 60000)) ∧
    (∀ text now h m pm, now < dayMs →
      firstMatch hoursAt text = none → firstMatch minutesAt text = none →
      firstMatch secondsAt text = none → firstMatch retryAt text = none →
      firstMatch ampmAt text = some (h, m, pm) →
      extractResetTime text now = some ((clockWaitMin (h12to24 h pm) m now : Nat) : ℚ) ∧
      1 ≤ clockWaitMin (h12to24 h pm) m now ∧
      (clockTargetMs (h12to24 h pm) m ≤ now →
        clockWaitMin (h12to24 h pm) m now =
          ceilDiv (clockTargetMs (h12to24 h pm) m + dayMs - now) 60000) ∧
      (now < clockTargetMs (h12to24 h pm) m →
        clockWaitMin (h12to24 h pm) m now =
          ceilDiv (clockTargetMs (h12to24 h pm) m - now) 60000)) ∧
    extractResetTime (str2n (r"at 15:00")) 50400000 = some 60 ∧
    extractResetTime (str2n (r"at 13:00")) 50400000 = some 1380 ∧
    extractResetTime (str2n (r"3:00 PM")) 50400000 = some 60 := by
  refine ⟨?_, ?_, by decide, by decide, by decide⟩
  · intro text now h m hnow h1 h2 h3 h4 h5 h6 hh hm
    exact ⟨ert_clock24 text now h m h1 h2 h3 h4 h5 h6 hh hm, le_max_left _ _,
      fun ht => clockWaitMin_rolled h m now hnow ht,
      fun ht => clockWaitMin_future h m now ht⟩
  · intro text now h m pm hnow h1 h2 h3 h4 h5
    exact ⟨ert_ampm text now h m pm h1 h2 h3 h4 h5, le_max_left _ _,
      fun ht => clockWaitMin_rolled _ _ now hnow ht,
      fun ht => clockWaitMin_future _ _ now ht⟩

/-- Claim C5, witness: the 24-hour clause applied to `at 15:00` at 14:00. -/
theorem c5_witness :
    extractResetTime (str2n (r"at 15:00")) 50400000 =
      some ((clockWaitMin 15 0 50400000 : Nat) : ℚ) :=
  (c5_clock_semantics.1 (str2n (r"at 15:00")) 50400000 15 0 (by decide) (by decide)
    (by decide) (by decide) (by decide) (by decide) (by decide) (by decide)
    (by decide)).1

/-- Claim C9, counterexample to the claim as stated: the parser maps
`in 0 minutes` to `0`, not to a strictly positive value or `unknown`. -/
theorem c9_zero_counterexample :
    extractResetTime (str2n (r"in 0 minutes")) 0 = some 0 := by decide

/-- A 24-hour clock capture out of range makes the parser answer
`unknown` (the code falls through to `return null`). -/
theorem ert_clock24_invalid (text : List Nat) (now : Nat) (h m : Nat)
    (h1 : firstMatch hoursAt text = none)
    (h2 : firstMatch minutesAt text = none)
    (h3 : firstMatch secondsAt text = none)
    (h4 : firstMatch retryAt text = none)
    (h5 : firstMatch ampmAt text = none)
    (h6 : firstMatch clock24At text = some (h, m))
    (hv : ¬(h ≤ 23 ∧ m ≤ 59)) :
    extractResetTime text now = none := by
  rw [extractResetTime, h1, h2, h3, h4, h5, h6]
  simp only [Bool.and_eq_true, decide_eq_true_eq, ite_eq_right_iff, and_imp]
  intro ha hb
  exact absurd ⟨ha, hb⟩ hv

/-- Claim C9, amended: for every input text the reset-time parser returns
either a nonnegative number of minutes or `unknown`; it never returns a
negative value, though it can return zero (for example on `in 0 minutes`). -/
theorem c9_parser_nonneg (text : List Nat) (now : Nat) (q : ℚ)
    (h : extractResetTime text now = some q) : 0 ≤ q := by
  cases h1 : firstMatch hoursAt text with
  | some v =>
    obtain ⟨ds, fr⟩ := v
    rw [ert_hours text now ds fr h1, Option.some.injEq] at h
    subst h
    exact Nat.cast_nonneg _
  | none =>
  cases h2 : firstMatch minutesAt text with
  | some n =>
    rw [ert_minutes text now n h1 h2, Option.some.injEq] at h
    subst h
    exact Nat.cast_nonneg _
  | none =>
  cases h3 : firstMatch secondsAt text with
  | some n =>
    rw [ert_seconds text now n h1 h2 h3, Option.some.injEq] at h
    subst h
    rw [seconds_val_spec]
    exact le_trans (by norm_num) (le_max_left (1 / 2 : ℚ) _)
  | none =>
  cases h4 : firstMatch retryAt text with
  | some n =>
    rw [ert_retry text now n h1 h2 h3 h4, Option.some.injEq] at h
    subst h
    exact Nat.cast_nonneg _
  | none =>
  cases h5 : firstMatch ampmAt text with
  | some v =>
    obtain ⟨hh, m, pm⟩ := v
    rw [ert_ampm text now hh m pm h1 h2 h3 h4 h5, Option.some.injEq] at h
    subst h
    exact Nat.cast_nonneg _
  | none =>
  cases h6 : firstMatch clock24At text with
  | some v =>
    obtain ⟨hh, m⟩ := v
    by_cases hv : hh ≤ 23 ∧ m ≤ 59
    · rw [ert_clock24 text now hh m h1 h2 h3 h4 h5 h6 hv.1 hv.2,
        Option.some.injEq] at h
      subst h
      exact Nat.cast_nonneg _
    · rw [ert_clock24_invalid text now hh m h1 h2 h3 h4 h5 h6 hv] at h
      exact absurd h (by simp)
  | none =>
    rw [ert_none text now h1 h2 h3 h4 h5 h6] at h
    exact absurd h (by simp)

/-- Claim C9, witness: the nonnegativity theorem applied to a concrete
retry-after input. -/
theorem c9_witness :
    extractResetTime (str2n (r"retry-after: 90")) 0 = some 2 ∧ (0 : ℚ) ≤ 2 := by
  constructor
  · decide
  · exact c9_parser_nonneg (str2n (r"retry-after: 90")) 0 2 (by decide)

/-! ### Substring lemmas for the classifier -/

/-- Splitting a lower-cased list along an append of the image. -/
theorem map_lcn_append {l a b : List Nat} (h : l.map lcn = a ++ b) :
    ∃ l1 l2, l = l1 ++ l2 ∧ l1.map lcn = a ∧ l2.map lcn = b := by
  induction a generalizing l with
  | nil => exact ⟨[], l, rfl, rfl, h⟩
  | cons x a ih =>
    cases l with
    | nil => simp at h
    | cons y l =>
      rw [List.map_cons, List.cons_append, List.cons.injEq] at h
      obtain ⟨hx, hrest⟩ := h
      obtain ⟨l1, l2, rfl, hm1, hm2⟩ := ih hrest
      exact ⟨y :: l1, l2, rfl, by rw [List.map_cons, hx, hm1], hm2⟩

/-- Splitting a lower-cased list along a cons of the image. -/
theorem map_lcn_cons {l : List Nat} {c : Nat} {b : List Nat}
    (h : l.map lcn = c :: b) :
    ∃ x l2, l = x :: l2 ∧ lcn x = c ∧ l2.map lcn = b := by
  cases l with
  | nil => simp at h
  | cons y l =>
    rw [List.map_cons, List.cons.injEq] at h
    exact ⟨y, l, rfl, h.1, h.2⟩

/-- Only the space codepoint lower-cases to a space. -/
theorem lcn_space {x : Nat} (h : lcn x = 32) : x = 32 := by
  rw [lcn] at h
  split at h <;> omega

/-- A case-insensitive literal matches any casing of itself. -/
theorem matchLit_append {u : List Nat} (rest : List Nat) :
    matchLit (u.map lcn) (u ++ rest) = some rest := by
  induction u with
  | nil => rfl
  | cons x u ih =>
    rw [List.map_cons, List.cons_append]
    show (if lcn x = lcn x then matchLit (u.map lcn) (u ++ rest) else none) = some rest
    rw [if_pos rfl]
    exact ih

/-- Head equation of `matchWords`. -/
theorem matchWords_cons (w : List Nat) (ws : List (List Nat)) (l : List Nat) :
    matchWords (w :: ws) l =
      (match matchLit w l with
       | none => false
       | some rest =>
         if ws.isEmpty then true
         else
           matchWords ws rest ||
           (match rest with
            | c :: cs => dotC c && matchWords ws cs
            | [] => false)) := rfl

/-- A single pattern word matches any casing of itself at the head. -/
theorem matchWords_one {w u : List Nat} (rest : List Nat) (h : u.map lcn = w) :
    matchWords [w] (u ++ rest) = true := by
  subst h
  rw [matchWords_cons, matchLit_append]
  rfl

/-- Two pattern words separated by one `.?`-acceptable codepoint match the
corresponding concatenation. -/
theorem matchWords_two {w1 w2 u1 u2 : List Nat} {s : Nat} (rest : List Nat)
    (h1 : u1.map lcn = w1) (hs : dotC s = true) (h2 : u2.map lcn = w2) :
    matchWords [w1, w2] (u1 ++ s :: (u2 ++ rest)) = true := by
  subst h1
  rw [matchWords_cons, matchLit_append]
  simp [hs, matchWords_one rest h2]

/-- Three pattern words with two separators match the corresponding
concatenation. -/
theorem matchWords_three {w1 w2 w3 u1 u2 u3 : List Nat} {s1 s2 : Nat} (rest : List Nat)
    (h1 : u1.map lcn = w1) (hs1 : dotC s1 = true) (h2 : u2.map lcn = w2)
    (hs2 : dotC s2 = true) (h3 : u3.map lcn = w3) :
    matchWords [w1, w2, w3] (u1 ++ s1 :: (u2 ++ s2 :: (u3 ++ rest))) = true := by
  subst h1
  rw [matchWords_cons, matchLit_append]
  simp [hs1, matchWords_two rest h2 hs2 h3]

/-- A positional match anywhere in the text makes the search succeed. -/
theorem searchWords_of_matchWords {ws : List (List Nat)} {l : List Nat}
    (pre : List Nat) (h : matchWords ws l = true) :
    searchWords ws (pre ++ l) = true := by
  induction pre with
  | nil =>
    cases l with
    | nil => simpa [searchWords] using h
    | cons c cs => simp [searchWords, h]
  | cons p pre ih => simp [searchWords, ih]

/-- Any casing of a two-word phrase occurring anywhere in the text makes
the corresponding two-word pattern search succeed. -/
theorem searchWords_two_of_map {w1 w2 : List Nat} (pre suf : List Nat) {mid : List Nat}
    (h : mid.map lcn = w1 ++ 32 :: w2) :
    searchWords [w1, w2] (pre ++ mid ++ suf) = true := by
  obtain ⟨u1, l2, rfl, hm1, hm2⟩ := map_lcn_append h
  obtain ⟨s, u2, rfl, hs, hm3⟩ := map_lcn_cons hm2
  obtain rfl := lcn_space hs
  have hm : matchWords [w1, w2] (u1 ++ 32 :: (u2 ++ suf)) = true :=
    matchWords_two suf hm1 (by decide) hm3
  have hr : (u1 ++ 32 :: u2) ++ suf = u1 ++ 32 :: (u2 ++ suf) := by simp
  rw [List.append_assoc, hr]
  exact searchWords_of_matchWords pre hm

/-- Any casing of a three-word phrase occurring anywhere in the text makes
the corresponding three-word pattern search succeed. -/
theorem searchWords_three_of_map {w1 w2 w3 : List Nat} (pre suf : List Nat)
    {mid : List Nat} (h : mid.map lcn = w1 ++ 32 :: (w2 ++ 32 :: w3)) :
    searchWords [w1, w2, w3] (pre ++ mid ++ suf) = true := by
  obtain ⟨u1, l2, rfl, hm1, hm2⟩ := map_lcn_append h
  obtain ⟨s1, l3, rfl, hs1, hm3⟩ := map_lcn_cons hm2
  obtain ⟨u2, l4, rfl, hm4, hm5⟩ := map_lcn_append hm3
  obtain ⟨s2, u3, rfl, hs2, hm6⟩ := map_lcn_cons hm5
  obtain rfl := lcn_space hs1
  obtain rfl := lcn_space hs2
  have hm : matchWords [w1, w2, w3] (u1 ++ 32 :: (u2 ++ 32 :: (u3 ++ suf))) = true :=
    matchWords_three suf hm1 (by decide) hm4 (by decide) hm6
  have hr : (u1 ++ 32 :: (u2 ++ 32 :: u3)) ++ suf =
      u1 ++ 32 :: (u2 ++ 32 :: (u3 ++ suf)) := by simp
  rw [List.append_assoc, hr]
  exact searchWords_of_matchWords pre hm

/-- The empty-text guard changes nothing: the classifier is exactly the
pattern disjunction. -/
theorem matchesRateLimit_eq_any (text : List Nat) :
    matchesRateLimit text = matchesAnyPattern text := by
  cases text with
  | nil => decide
  | cons c cs => rfl

/-- Claim C2: the rate-limit classifier is a deterministic pure predicate
that answers true exactly when its input matches at least one of the fixed
indicator patterns; every text containing one of the indicator phrases —
in any casing — is classified as a rate limit, and every text matching
none of the patterns is not. -/
theorem c2_classifier :
    (∀ text, matchesRateLimit text = matchesAnyPattern text) ∧
    (∀ text, matchesAnyPattern text = false → matchesRateLimit text = false) ∧
    (∀ pre mid suf phrase, phrase ∈ indicatorPhrases → mid.map lcn = phrase →
      matchesRateLimit (pre ++ mid ++ suf) = true) := by
  refine ⟨matchesRateLimit_eq_any, ?_, ?_⟩
  · intro text h
    rw [matchesRateLimit_eq_any, h]
  · intro pre mid suf phrase hmem h
    rw [matchesRateLimit_eq_any]
    rw [indicatorPhrases] at hmem
    simp only [List.mem_cons, List.not_mem_nil, or_false] at hmem
    rcases hmem with h9 | h9 | h9 | h9 | h9 | h9 | h9 | h9 | h9 <;> subst h9
    all_goals first
      | (have hs := searchWords_two_of_map pre suf h
         rw [List.append_assoc] at hs
         simp [matchesAnyPattern, hs]
         done)
      | (have hs := searchWords_three_of_map pre suf h
         rw [List.append_assoc] at hs
         simp [matchesAnyPattern, hs])

/-- Claim C2, witness: a mixed-case occurrence of `rate limit` inside a
longer text classifies as a rate limit. -/
theorem c2_witness :
    matchesRateLimit (str2n (r"API Rate Limit hit")) = true := by
  have h := c2_classifier.2.2 (str2n (r"API ")) (str2n (r"Rate Limit"))
    (str2n (r" hit")) (str2n (r"rate") ++ 32 :: str2n (r"limit"))
    (by decide) (by decide)
  have e : str2n (r"API ") ++ str2n (r"Rate Limit") ++ str2n (r" hit") =
      str2n (r"API Rate Limit hit") := by decide
  exact e ▸ h
